import Mathlib

/-!
Verification of the "base-on-chain-task-farmer" repository core:
the transaction submission loop with gas-fee policy and bounded
in-flight concurrency.  The repository has two variants sharing one
pipeline:

* the interactive front-end (`App.tsx` loop `startAutomatedSwaps`
  together with `EthereumService` in `ethereumService.ts`), and
* the unattended batch script (`batch script`, node entry point).

All definitions below are shallow embeddings translated from the
TypeScript source.  Machine integers (`BigInt` in the source) are
modelled as `Nat`: every quantity involved (allowances, gas, wei fee
values) is non-negative and ethers.js `BigInt` arithmetic on them is
exact, so no wrap-around modelling is needed.
-/

namespace Farmer

/-! ## Constants from the source -/

/-- `MAX_PENDING_TRANSACTIONS = 1` in `EthereumService`
("Limit to 1 concurrent transaction for stability"). -/
def MAX_PENDING_TRANSACTIONS : Nat := 1

/-- The fixed fallback gas limit `800000n` used by the batch script when
gas estimation throws. -/
def FALLBACK_GAS_LIMIT : Nat := 800000

/-- One gwei in wei: `ethers.parseUnits('1', 'gwei')`. -/
def GWEI : Nat := 1000000000

/-- Default slow-mode priority fee: `ethers.parseUnits('0.1', 'gwei')`
(the default of env `PRIORITY_GWEI`), i.e. 0.1 gwei = 10^8 wei. -/
def defaultPriorityWei : Nat := 100000000

/-- Default slow-mode max-fee addition: `ethers.parseUnits('1', 'gwei')`
(the default of env `MAXFEE_ADD_GWEI`). -/
def defaultMaxFeeAddWei : Nat := GWEI

/-- `ethers.MaxUint256`, the amount approved to the router. -/
def MaxUint256 : Nat := 2 ^ 256 - 1

/-! ## Fee estimator (batch script)

The batch script computes, per swap, a gas limit and (in slow mode) a
priority/max-fee pair:

```
try {
  const estimatedGas = await router.estimateGas.execute('0x00', inputs, deadline);
  overrides.gasLimit = BigInt(estimatedGas) * 110n / 100n;    // add 10% buffer
} catch (eg) {
  overrides.gasLimit = 800000n;                               // fallback
}
```

The result of the (fallible) simulation is modelled as `Option Nat`. -/

/-- Gas-limit computation of the batch script: `some g` models a
successful `estimateGas` returning `g`, `none` models the call
throwing. `BigInt` division truncates, as `Nat` division does. -/
def computeGasLimit (estimatedGas : Option Nat) : Nat :=
  match estimatedGas with
  | some g => g * 110 / 100
  | none => FALLBACK_GAS_LIMIT

/-- Slow-gas override computation of the batch script, lines

```
const baseFee = block && block.baseFeePerGas ? BigInt(block.baseFeePerGas) : null;
const priority = ethers.parseUnits(priorityGwei, 'gwei');
const extra = ethers.parseUnits(MAXFEE_ADD_GWEI, 'gwei');
if (baseFee) {
  const maxFee = BigInt(baseFee) + BigInt(extra) + BigInt(priority);
  overrides.maxPriorityFeePerGas = priority;
  overrides.maxFeePerGas = maxFee;
} else {
  const feeData = await provider.getFeeData();
  const fallbackMax = feeData.maxFeePerGas || feeData.gasPrice || ethers.parseUnits('1', 'gwei');
  overrides.maxPriorityFeePerGas = priority;
  overrides.maxFeePerGas = BigInt(fallbackMax) + BigInt(extra) + BigInt(priority);
}
```

All values are in wei.  `baseFee = none` models an unavailable
`baseFeePerGas`; `feeDataFallback` models the already-collapsed chain
`feeData.maxFeePerGas || feeData.gasPrice || 1 gwei`.  The returned pair
is `(maxPriorityFeePerGas, maxFeePerGas)`. -/
def slowGasFees (baseFee : Option Nat) (feeDataFallback : Nat)
    (priority extra : Nat) : Nat × Nat :=
  match baseFee with
  | some bf => (priority, bf + extra + priority)
  | none => (priority, feeDataFallback + extra + priority)

/-! ## Dispatch outcomes and the user-rejection classifier

The interactive loop (`startAutomatedSwaps`) classifies a dispatch
failure by

```
if (err.message.toLowerCase().includes('user rejected') ||
    err.message.toLowerCase().includes('4001')) { ... break; }
```

We embed lower-casing and substring search on `List Char`. -/

/-- Result of one dispatch (`await ethService.swapUSDCtoETH(...)` in the
interactive loop, `await router.execute(...)` in the batch script):
either a transaction hash, or an error message. -/
inductive DispatchResult where
  | ok (hash : String)
  | err (msg : String)
deriving DecidableEq, Repr

/-- Does `pat` occur at the head of `hay`? (char-list analogue of the
string search used by JavaScript `includes`). -/
def startsWithCL : List Char → List Char → Bool
  | _, [] => true
  | [], _ :: _ => false
  | h :: t, p :: ps => h == p && startsWithCL t ps

/-- Does `pat` occur anywhere in `hay`? -/
def containsCL : List Char → List Char → Bool
  | [], pat => pat.isEmpty
  | h :: t, pat => startsWithCL (h :: t) pat || containsCL t pat

/-- `err.message.toLowerCase().includes('user rejected') ||
err.message.toLowerCase().includes('4001')` from the interactive loop. -/
def isUserRejection (msg : String) : Bool :=
  let m := msg.toList.map Char.toLower
  containsCL m ("user rejected".toList) || containsCL m ("4001".toList)

/-- Whether the iteration at index `j` halts the interactive loop: a
successful dispatch never halts, a failed one halts exactly when the
message is classified as a user rejection. -/
def halting (outcome : Nat → DispatchResult) (j : Nat) : Bool :=
  match outcome j with
  | .ok _ => false
  | .err m => isUserRejection m

/-! ## Event traces of the two loop variants -/

/-- Observable actions of a run, shared by both variants.
`swapSend i` is the dispatch of swap index `i` (`router.execute` /
`swapUSDCtoETH`), `confirmWait i` is an on-chain confirmation await
(`await tx.wait()` — present only in the batch script), `approveTx` is
an issued ERC-20 approval transaction, `delayEvt` is the inter-swap
sleep. -/
inductive BatchEvent where
  | approveTx (amount : Nat)
  | swapSend (i : Nat)
  | confirmWait (i : Nat)
  | delayEvt
deriving DecidableEq, Repr

/-- How a run of the interactive loop ended. -/
inductive RunEnd where
  | finished
  | stoppedByRejection
  | stoppedByUser
  | criticalError
deriving DecidableEq, Repr

/-- The indices of the dispatches occurring in a trace. -/
def attemptsOf (evs : List BatchEvent) : List Nat :=
  evs.filterMap fun e =>
    match e with
    | .swapSend i => some i
    | _ => none

/-- Is the event an on-chain confirmation await? -/
def isConfirmEvent : BatchEvent → Bool
  | .confirmWait _ => true
  | _ => false

/-- Is the event an issued approval transaction? -/
def isApproveEvent : BatchEvent → Bool
  | .approveTx _ => true
  | _ => false

/-- One pass of the interactive loop of `startAutomatedSwaps`, from
index `i` with `rem` iterations remaining (`rem = totalSwaps - i`).
Per iteration the source:

* checks `stopRequested.current` and breaks if set;
* awaits `ethService.swapUSDCtoETH(...)` — the dispatch; on success it
  sleeps the inter-swap delay and moves on; there is no `tx.wait()`
  (no on-chain confirmation await) anywhere in this path;
* on a dispatch error it logs the failure and breaks iff the message is
  classified as a user rejection, otherwise moves on (the catch branch
  has no sleep).

Returns the event trace and how the loop ended. -/
def iLoop (outcome : Nat → DispatchResult) (stop : Nat → Bool) :
    Nat → Nat → List BatchEvent × RunEnd
  | _, 0 => ([], .finished)
  | i, rem + 1 =>
    if stop i then ([], .stoppedByUser)
    else
      match outcome i with
      | .ok _ =>
        let r := iLoop outcome stop (i + 1) rem
        (.swapSend i :: .delayEvt :: r.1, r.2)
      | .err m =>
        if isUserRejection m then ([.swapSend i], .stoppedByRejection)
        else
          let r := iLoop outcome stop (i + 1) rem
          (.swapSend i :: r.1, r.2)

/-- The swap loop of the batch script, from index `i` with `rem`
iterations remaining.  Per iteration the source sends the transaction,
then `await tx.wait()` (on-chain confirmation) before anything else;
a failure anywhere in the iteration is caught, logged and the loop
continues; in both cases it sleeps iff `i < TOTAL_SWAPS - 1` (i.e. iff
more iterations remain). -/
def batchLoop (res : Nat → DispatchResult) : Nat → Nat → List BatchEvent
  | _, 0 => []
  | i, rem + 1 =>
    match res i with
    | .ok _ =>
      .swapSend i :: .confirmWait i ::
        ((if 0 < rem then [BatchEvent.delayEvt] else []) ++
          batchLoop res (i + 1) rem)
    | .err _ =>
      .swapSend i ::
        ((if 0 < rem then [BatchEvent.delayEvt] else []) ++
          batchLoop res (i + 1) rem)

/-- The batch script end to end: missing `PRIVATE_KEY` exits with code 1
before anything else; then the allowance step compares the current
allowance with `amountInUnits * TOTAL_SWAPS`, issuing one MaxUint256
approval when it is insufficient (failure of the allowance/approval
step exits with code 1); then the swap loop runs and the script exits
with code 0.  Returns the event trace and the process exit code. -/
def batchMain (hasKey : Bool) (allowance amount total : Nat)
    (approveOk : Bool) (res : Nat → DispatchResult) :
    List BatchEvent × Nat :=
  if hasKey = false then ([], 1)
  else if allowance < amount * total then
    if approveOk then (.approveTx MaxUint256 :: batchLoop res 0 total, 0)
    else ([.approveTx MaxUint256], 1)
  else (batchLoop res 0 total, 0)

/-! ## The interactive service state and its cleanup

`EthereumService.cleanup()` clears the contract cache and the pending
transaction map; `startAutomatedSwaps` calls it in its `finally`
block, so it runs at the end of every run. -/

/-- The mutable state of `EthereumService` relevant to the claims:
the pending-transaction map (as the list of its keys) and the contract
cache (as the list of its keys). -/
structure EthSvcState where
  pendingTransactions : List Nat
  contractCache : List String
deriving DecidableEq, Repr

/-- `cleanup()`: `this.contractCache.clear(); this.pendingTransactions.clear();` -/
def cleanup (s : EthSvcState) : EthSvcState :=
  { s with pendingTransactions := [], contractCache := [] }

/-- `approveUSDC(amount)` of the interactive service issues an approval
transaction (for `ethers.MaxUint256`) iff the current allowance is
below `parseUnits(amount, 6)` — the amount of ONE swap:

```
if (BigInt(allowance) >= BigInt(amountInUnits)) return true;
const tx = await usdcContract.approve(UNISWAP_ROUTER_ADDRESS, ethers.MaxUint256);
await tx.wait();
```

Returns the number of approval transactions issued. -/
def approveUSDCCount (allowance amountInUnits : Nat) : Nat :=
  if amountInUnits ≤ allowance then 0 else 1

/-- An interactive run end to end (`startAutomatedSwaps`): allowance
check with the PER-SWAP amount, then the loop, then `cleanup()` in the
`finally` block.  `approveOk = false` models the approval step
throwing, which the outer catch turns into a critical error with no
swap attempted (the `finally` cleanup still runs).  `s` is the service
state left by the loop; its exact pending bookkeeping is irrelevant
because `cleanup` unconditionally clears it. -/
structure IRunResult where
  events : List BatchEvent
  endState : RunEnd
  finalPending : List Nat
deriving Repr

def runInteractive (allowance amtUnits : Nat) (approveOk : Bool)
    (outcome : Nat → DispatchResult) (stop : Nat → Bool) (total : Nat)
    (s : EthSvcState) : IRunResult :=
  if amtUnits ≤ allowance then
    let r := iLoop outcome stop 0 total
    { events := r.1, endState := r.2,
      finalPending := (cleanup s).pendingTransactions }
  else if approveOk then
    let r := iLoop outcome stop 0 total
    { events := .approveTx MaxUint256 :: r.1, endState := r.2,
      finalPending := (cleanup s).pendingTransactions }
  else
    { events := [.approveTx MaxUint256], endState := .criticalError,
      finalPending := (cleanup s).pendingTransactions }

/-! ## Concrete dispatch oracles

Used to instantiate the loop theorems on concrete runs. -/

/-- Every dispatch succeeds. -/
def exampleOutcomeOk : Nat → DispatchResult := fun _ => .ok "0xaa"

/-- Dispatch fails at index 1 with a wallet user-rejection message. -/
def exampleOutcomeRejectAt1 : Nat → DispatchResult := fun n =>
  if n = 1 then .err "user rejected" else .ok "0xaa"

/-- Dispatch fails at index 0 with a non-rejection RPC error. -/
def exampleOutcomeErrAt0 : Nat → DispatchResult := fun n =>
  if n = 0 then .err "rpc timeout" else .ok "0xaa"

/-! ## The pending-slot machine of `EthereumService` (claim C1)

`swapUSDCtoETH` first does `await this.waitForTransactionSlot()`, which
polls `getPendingTransactionCount()` every 200 ms and returns only when
that count is strictly below `MAX_PENDING_TRANSACTIONS`; only then is a
new entry `set` into `pendingTransactions`.  Entries are deleted when
the dispatch promise settles (both `.then` and `.catch` handlers
delete), and `cleanup()` clears the whole map.  JavaScript is single
threaded, so between the final (below-capacity) poll and the `set`
nothing else touches the map: a dispatch transition is enabled only in
a state whose pending count is strictly below the capacity. -/

/-- The pending-transaction map, as the list of its keys. -/
structure PendingState where
  pending : List Nat
deriving DecidableEq, Repr

/-- Labels of the service transitions that touch `pendingTransactions`. -/
inductive SvcLabel where
  | dispatch (id : Nat)
  | settle (id : Nat)
  | cleanupEvt
deriving DecidableEq, Repr

/-- Transition relation on the pending map, capacity `cap`
(`MAX_PENDING_TRANSACTIONS` in the source).  `dispatch` is guarded by
`waitForTransactionSlot`: it fires only when the pending count is
strictly below `cap`.  `settle` is the deletion performed by the
tracking promise handlers; `cleanupEvt` is `cleanup()`. -/
inductive SvcStep (cap : Nat) : PendingState → SvcLabel → PendingState → Prop where
  | dispatch (s : PendingState) (id : Nat)
      (hslot : s.pending.length < cap) :
      SvcStep cap s (.dispatch id) ⟨id :: s.pending⟩
  | settle (s : PendingState) (id : Nat) :
      SvcStep cap s (.settle id) ⟨s.pending.erase id⟩
  | cleanup (s : PendingState) :
      SvcStep cap s .cleanupEvt ⟨[]⟩

/-- States reachable from the initial empty map through service
transitions. -/
inductive SvcReach (cap : Nat) : PendingState → Prop where
  | init : SvcReach cap ⟨[]⟩
  | step {s t : PendingState} {l : SvcLabel} :
      SvcReach cap s → SvcStep cap s l t → SvcReach cap t

/-! ## The lifecycle of one submission (claim C8)

`swapUSDCtoETH` dispatches `router.execute(...)` and stores a tracking
entry:

```
const txPromise = router.execute("0x00", inputs, deadline);
const trackingPromise = txPromise.then((tx) => {
  this.pendingTransactions.delete(txId);
  return tx.hash;
}).catch((err) => {
  this.pendingTransactions.delete(txId);
  throw err;
});
this.pendingTransactions.set(txId, { id: txId, promise: trackingPromise });
```

`router.execute` (a state-mutating ethers.js contract call) resolves
when the transaction response is returned — i.e. when the signed
transaction has been handed to the network — NOT when it is mined.
The repository's own batch script exhibits the distinction:
`const tx = await router.execute(...)` logs "TX sent ... (waiting
confirmation)" and only `await tx.wait()` yields confirmation.  The
interactive service installs no receipt / confirmation handler at all,
so an on-chain confirmation event leaves the map untouched, while the
settlement of the dispatch promise (either way) deletes the entry. -/

/-- Events in the life of submissions, as seen by `EthereumService`. -/
inductive TxEvent where
  | dispatch (id : Nat)
  | submitResolved (id : Nat)
  | submitRejected (id : Nat)
  | confirmedOnChain (id : Nat)
deriving DecidableEq, Repr

/-- Effect of one lifecycle event on the pending map: `dispatch` adds
the entry, settlement of the dispatch promise (`submitResolved` via the
`.then` handler, `submitRejected` via the `.catch` handler) deletes it,
and on-chain confirmation has no handler, hence no effect. -/
def pendingStep (p : List Nat) : TxEvent → List Nat
  | .dispatch id => id :: p
  | .submitResolved id => p.erase id
  | .submitRejected id => p.erase id
  | .confirmedOnChain _ => p

/-- The pending map after a sequence of lifecycle events, starting
empty. -/
def pendingRun (evs : List TxEvent) : List Nat :=
  evs.foldl pendingStep []

/-- Does the event reveal the transaction's final outcome in the sense
of the spec — confirmed on-chain, or failed? -/
def isOutcomeEvent : TxEvent → Bool
  | .submitRejected _ => true
  | .confirmedOnChain _ => true
  | _ => false

/-! ## Helper lemmas about traces -/

theorem attemptsOf_nil : attemptsOf [] = [] := rfl

theorem attemptsOf_cons_swap (i : Nat) (l : List BatchEvent) :
    attemptsOf (.swapSend i :: l) = i :: attemptsOf l := rfl

theorem attemptsOf_cons_delay (l : List BatchEvent) :
    attemptsOf (.delayEvt :: l) = attemptsOf l := rfl

theorem attemptsOf_cons_confirm (i : Nat) (l : List BatchEvent) :
    attemptsOf (.confirmWait i :: l) = attemptsOf l := rfl

theorem attemptsOf_cons_approve (a : Nat) (l : List BatchEvent) :
    attemptsOf (.approveTx a :: l) = attemptsOf l := rfl

theorem attemptsOf_append (l m : List BatchEvent) :
    attemptsOf (l ++ m) = attemptsOf l ++ attemptsOf m :=
  List.filterMap_append l m _

/-- The optional inter-swap delay of the batch loop carries no dispatch. -/
theorem attemptsOf_delayOpt (c : Prop) [Decidable c] :
    attemptsOf (if c then [BatchEvent.delayEvt] else []) = [] := by
  split <;> rfl

/-- Unfolding the interactive loop when the current dispatch succeeds. -/
theorem iLoop_ok (outcome : Nat → DispatchResult) (stop : Nat → Bool)
    (i rem : Nat) (h : String) (hstop : stop i = false)
    (hok : outcome i = .ok h) :
    iLoop outcome stop i (rem + 1) =
      (.swapSend i :: .delayEvt :: (iLoop outcome stop (i + 1) rem).1,
        (iLoop outcome stop (i + 1) rem).2) := by
  simp [iLoop, hstop, hok]

/-- Unfolding the interactive loop when the current dispatch fails with
a message classified as a user rejection: the loop halts at once. -/
theorem iLoop_halt (outcome : Nat → DispatchResult) (stop : Nat → Bool)
    (i rem : Nat) (msg : String) (hstop : stop i = false)
    (herr : outcome i = .err msg) (hrej : isUserRejection msg = true) :
    iLoop outcome stop i (rem + 1) = ([.swapSend i], .stoppedByRejection) := by
  simp [iLoop, hstop, herr, hrej]

/-- Unfolding the interactive loop when the current dispatch fails with
a message NOT classified as a user rejection: the loop records and
continues. -/
theorem iLoop_err_continue (outcome : Nat → DispatchResult)
    (stop : Nat → Bool) (i rem : Nat) (msg : String) (hstop : stop i = false)
    (herr : outcome i = .err msg) (hrej : isUserRejection msg = false) :
    iLoop outcome stop i (rem + 1) =
      (.swapSend i :: (iLoop outcome stop (i + 1) rem).1,
        (iLoop outcome stop (i + 1) rem).2) := by
  simp [iLoop, hstop, herr, hrej]

/-- As long as no iteration halts the loop (no stop flag, no
user-rejection error), the interactive loop from `i` attempts the `k`
indices `i, i+1, ..., i+k-1` in order and then behaves like the loop
from `i + k`. -/
theorem iLoop_skip (outcome : Nat → DispatchResult) (stop : Nat → Bool)
    (k : Nat) :
    ∀ i rem : Nat,
      (∀ j, i ≤ j → j < i + k → stop j = false ∧ halting outcome j = false) →
      attemptsOf (iLoop outcome stop i (k + rem)).1 =
          List.range' i k ++ attemptsOf (iLoop outcome stop (i + k) rem).1 ∧
        (iLoop outcome stop i (k + rem)).2 =
          (iLoop outcome stop (i + k) rem).2 := by
  induction k with
  | zero => intro i rem _; simp
  | succ k ih =>
    intro i rem hnh
    have hi : stop i = false ∧ halting outcome i = false :=
      hnh i (Nat.le_refl i) (by omega)
    have hrest : ∀ j, i + 1 ≤ j → j < (i + 1) + k →
        stop j = false ∧ halting outcome j = false := by
      intro j h1 h2
      exact hnh j (by omega) (by omega)
    have hrec := ih (i + 1) rem hrest
    have harith : k + 1 + rem = (k + rem) + 1 := by omega
    have harith2 : (i + 1) + k = i + (k + 1) := by omega
    rw [harith2] at hrec
    cases hout : outcome i with
    | ok h =>
      rw [harith, iLoop_ok outcome stop i (k + rem) h hi.1 hout]
      simp only [attemptsOf_cons_swap, attemptsOf_cons_delay, List.range'_succ,
        List.cons_append]
      exact ⟨by rw [hrec.1], hrec.2⟩
    | err m =>
      have hrej : isUserRejection m = false := by
        have := hi.2
        simpa [halting, hout] using this
      rw [harith, iLoop_err_continue outcome stop i (k + rem) m hi.1 hout hrej]
      simp only [attemptsOf_cons_swap, List.range'_succ, List.cons_append]
      exact ⟨by rw [hrec.1], hrec.2⟩

/-- When at least one iteration remains and the stop flag is not set,
the interactive loop attempts its first index. -/
theorem iLoop_first_mem (outcome : Nat → DispatchResult)
    (stop : Nat → Bool) (i rem : Nat) (hstop : stop i = false)
    (hrem : 0 < rem) : i ∈ attemptsOf (iLoop outcome stop i rem).1 := by
  obtain ⟨rem', rfl⟩ : ∃ r, rem = r + 1 := ⟨rem - 1, by omega⟩
  cases hout : outcome i with
  | ok h => rw [iLoop_ok outcome stop i rem' h hstop hout]; simp [attemptsOf]
  | err m =>
    cases hrej : isUserRejection m with
    | true =>
      rw [iLoop_halt outcome stop i rem' m hstop hout hrej]
      simp [attemptsOf]
    | false =>
      rw [iLoop_err_continue outcome stop i rem' m hstop hout hrej]
      simp [attemptsOf]

/-- The interactive loop never awaits an on-chain confirmation: its
trace contains no `confirmWait` event. -/
theorem iLoop_no_confirm (outcome : Nat → DispatchResult)
    (stop : Nat → Bool) :
    ∀ rem i, (iLoop outcome stop i rem).1.countP isConfirmEvent = 0 := by
  intro rem
  induction rem with
  | zero => intro i; rfl
  | succ rem ih =>
    intro i
    cases hstop : stop i with
    | true => simp [iLoop, hstop]
    | false =>
      cases hout : outcome i with
      | ok h =>
        rw [iLoop_ok outcome stop i rem h hstop hout]
        simp [List.countP_cons, isConfirmEvent, ih (i + 1)]
      | err m =>
        cases hrej : isUserRejection m with
        | true =>
          rw [iLoop_halt outcome stop i rem m hstop hout hrej]
          simp [List.countP_cons, isConfirmEvent]
        | false =>
          rw [iLoop_err_continue outcome stop i rem m hstop hout hrej]
          simp [List.countP_cons, isConfirmEvent, ih (i + 1)]

/-- The interactive loop issues no approval transaction. -/
theorem iLoop_no_approve (outcome : Nat → DispatchResult)
    (stop : Nat → Bool) :
    ∀ rem i, (iLoop outcome stop i rem).1.countP isApproveEvent = 0 := by
  intro rem
  induction rem with
  | zero => intro i; rfl
  | succ rem ih =>
    intro i
    cases hstop : stop i with
    | true => simp [iLoop, hstop]
    | false =>
      cases hout : outcome i with
      | ok h =>
        rw [iLoop_ok outcome stop i rem h hstop hout]
        simp [List.countP_cons, isApproveEvent, ih (i + 1)]
      | err m =>
        cases hrej : isUserRejection m with
        | true =>
          rw [iLoop_halt outcome stop i rem m hstop hout hrej]
          simp [List.countP_cons, isApproveEvent]
        | false =>
          rw [iLoop_err_continue outcome stop i rem m hstop hout hrej]
          simp [List.countP_cons, isApproveEvent, ih (i + 1)]

/-- The batch loop attempts exactly the indices `i, ..., i + rem - 1`,
whatever the per-swap outcomes are. -/
theorem batchLoop_attempts (res : Nat → DispatchResult) :
    ∀ rem i, attemptsOf (batchLoop res i rem) = List.range' i rem := by
  intro rem
  induction rem with
  | zero => intro i; rfl
  | succ rem ih =>
    intro i
    cases hout : res i with
    | ok h =>
      simp only [batchLoop, hout, attemptsOf_cons_swap, attemptsOf_cons_confirm,
        attemptsOf_append, attemptsOf_delayOpt, List.nil_append, ih (i + 1),
        List.range'_succ]
    | err m =>
      simp only [batchLoop, hout, attemptsOf_cons_swap, attemptsOf_append,
        attemptsOf_delayOpt, List.nil_append, ih (i + 1), List.range'_succ]

/-- The batch loop issues no approval transaction. -/
theorem batchLoop_no_approve (res : Nat → DispatchResult) :
    ∀ rem i, (batchLoop res i rem).countP isApproveEvent = 0 := by
  intro rem
  induction rem with
  | zero => intro i; rfl
  | succ rem ih =>
    intro i
    cases hout : res i with
    | ok h =>
      simp only [batchLoop, hout]
      simp [List.countP_cons, List.countP_append, isApproveEvent, ih (i + 1)]
    | err m =>
      simp only [batchLoop, hout]
      simp [List.countP_cons, List.countP_append, isApproveEvent, ih (i + 1)]

/-- An interactive run with an allowance already covering the per-swap
amount: no approval event, loop result passed through, pending cleared
by the final `cleanup()`. -/
theorem runInteractive_sufficient (allowance amt : Nat) (aok : Bool)
    (outcome : Nat → DispatchResult) (stop : Nat → Bool) (total : Nat)
    (s : EthSvcState) (hle : amt ≤ allowance) :
    runInteractive allowance amt aok outcome stop total s =
      { events := (iLoop outcome stop 0 total).1,
        endState := (iLoop outcome stop 0 total).2,
        finalPending := [] } := by
  simp [runInteractive, hle, cleanup]

/-- An interactive run whose allowance is below the per-swap amount and
whose approval succeeds: one approval event in front of the loop
events. -/
theorem runInteractive_insufficient (allowance amt : Nat)
    (outcome : Nat → DispatchResult) (stop : Nat → Bool) (total : Nat)
    (s : EthSvcState) (hgt : ¬ amt ≤ allowance) :
    runInteractive allowance amt true outcome stop total s =
      { events := .approveTx MaxUint256 :: (iLoop outcome stop 0 total).1,
        endState := (iLoop outcome stop 0 total).2,
        finalPending := [] } := by
  simp [runInteractive, hgt, cleanup]

/-- An interactive run whose allowance is below the per-swap amount and
whose approval throws: the outer catch fires, no swap is attempted,
cleanup still runs. -/
theorem runInteractive_approveFail (allowance amt : Nat)
    (outcome : Nat → DispatchResult) (stop : Nat → Bool) (total : Nat)
    (s : EthSvcState) (hgt : ¬ amt ≤ allowance) :
    runInteractive allowance amt false outcome stop total s =
      { events := [.approveTx MaxUint256],
        endState := .criticalError,
        finalPending := [] } := by
  simp [runInteractive, hgt, cleanup]

/-! ## Claim theorems C2 and C3 -/

/-- Claim C2 (confirmed): in slow gas mode, when the latest block's base
fee is available, the batch script sets `maxPriorityFeePerGas` to the
configured priority and `maxFeePerGas` to exactly
`baseFee + maxFeeAdd + priority`; in particular for baseFee = 10 gwei,
priority = 0.1 gwei (= 10^8 wei, the default), maxFeeAdd = 1 gwei (the
default), the result is maxFeePerGas = 11.1 gwei = 11100000000 wei and
maxPriorityFeePerGas = 0.1 gwei = 100000000 wei. -/
theorem C2_slow_gas_fees :
    (∀ bf fb priority extra,
        slowGasFees (some bf) fb priority extra =
          (priority, bf + extra + priority)) ∧
    slowGasFees (some (10 * GWEI)) 0 defaultPriorityWei defaultMaxFeeAddWei =
      (100000000, 11100000000) := by
  constructor
  · intro bf fb priority extra
    rfl
  · rfl

/-- Claim C3 (confirmed): for every swap attempt of the batch script, a
successful gas simulation returning `estimatedGas` yields the gas limit
`estimatedGas * 110 / 100` (+10% buffer with integer division), and a
failed simulation yields the fixed fallback constant 800000, which is
neither zero nor undefined (the function is total). -/
theorem C3_gas_limit :
    (∀ g, computeGasLimit (some g) = g * 110 / 100) ∧
    computeGasLimit none = 800000 ∧
    0 < computeGasLimit none := by
  refine ⟨fun g => rfl, rfl, ?_⟩
  decide

/-! ## Claim C1: bounded pending-slot set -/

/-- Claim C1 (confirmed): in every run of the interactive service, the
pending-transaction set never exceeds the configured capacity: every
state reachable through the service transitions satisfies
`size(pendingTransactions) ≤ cap` (in the source `cap` is
`MAX_PENDING_TRANSACTIONS = 1`), and a dispatch — the only transition
adding an entry, performed by `swapUSDCtoETH` — fires only from a state
whose pending count is strictly below the capacity, which is exactly
the condition `waitForTransactionSlot` blocks on. -/
theorem C1_pending_capacity :
    (∀ (cap : Nat) (s : PendingState), SvcReach cap s →
        s.pending.length ≤ cap) ∧
    (∀ (cap : Nat) (s : PendingState) (id : Nat) (t : PendingState),
        SvcStep cap s (.dispatch id) t → s.pending.length < cap) := by
  constructor
  · intro cap s h
    induction h with
    | init => simp
    | step hr hs ih =>
      cases hs with
      | dispatch id hslot => simpa using hslot
      | settle id => exact le_trans (List.erase_sublist _ _).length_le ih
      | cleanup => simp
  · intro cap s id t h
    cases h
    assumption

/-- Witness for C1: with the source capacity `MAX_PENDING_TRANSACTIONS`
(= 1), the state reached by one guarded dispatch from the empty map
satisfies the bound, and that dispatch indeed started from a
below-capacity state. -/
theorem C1_pending_capacity_witness :
    (PendingState.mk [5]).pending.length ≤ MAX_PENDING_TRANSACTIONS ∧
    (PendingState.mk []).pending.length < MAX_PENDING_TRANSACTIONS := by
  have hstep : SvcStep MAX_PENDING_TRANSACTIONS ⟨[]⟩ (.dispatch 5) ⟨[5]⟩ :=
    SvcStep.dispatch ⟨[]⟩ 5 (by decide)
  have hreach : SvcReach MAX_PENDING_TRANSACTIONS ⟨[5]⟩ :=
    SvcReach.step SvcReach.init hstep
  exact ⟨C1_pending_capacity.1 _ _ hreach,
    C1_pending_capacity.2 _ _ 5 _ hstep⟩

/-! ## Claim C4: user rejection halts the interactive loop -/

/-- Claim C4 (confirmed): in the interactive loop, if the dispatch at
index `i` fails with an error classified as a user rejection (message
contains "user rejected" or "4001", case-insensitively), and no earlier
iteration halted the loop, then the attempted indices are exactly
`0, ..., i` — no index `i+1` or later is attempted — and the run ends
stopped by the rejection rather than by exhausting the count; whereas a
dispatch failure at `i` that is NOT classified as a user rejection is
recorded and the loop continues to index `i+1`. -/
theorem C4_rejection_stops :
    (∀ (outcome : Nat → DispatchResult) (total i : Nat) (msg : String),
        i < total → outcome i = .err msg → isUserRejection msg = true →
        (∀ j, j < i → halting outcome j = false) →
        attemptsOf (iLoop outcome (fun _ => false) 0 total).1 =
            List.range (i + 1) ∧
          (iLoop outcome (fun _ => false) 0 total).2 =
            RunEnd.stoppedByRejection) ∧
    (∀ (outcome : Nat → DispatchResult) (total i : Nat) (msg : String),
        i + 1 < total → outcome i = .err msg → isUserRejection msg = false →
        (∀ j, j < i → halting outcome j = false) →
        (i + 1) ∈ attemptsOf (iLoop outcome (fun _ => false) 0 total).1) := by
  constructor
  · intro outcome total i msg hlt herr hrej hprior
    obtain ⟨k, hk⟩ := Nat.exists_eq_add_of_lt hlt
    subst hk
    have hpre : ∀ j, 0 ≤ j → j < 0 + i →
        (fun _ => false) j = false ∧ halting outcome j = false := by
      intro j _ hj
      exact ⟨rfl, hprior j (by omega)⟩
    have hskip := iLoop_skip outcome (fun _ => false) i 0 (k + 1) hpre
    simp only [Nat.zero_add] at hskip
    have hhalt := iLoop_halt outcome (fun _ => false) i k msg rfl herr hrej
    have htot : i + k + 1 = i + (k + 1) := by omega
    rw [htot]
    refine ⟨?_, ?_⟩
    · rw [hskip.1, hhalt, List.range_succ, List.range_eq_range']
      simp [attemptsOf]
    · rw [hskip.2, hhalt]
  · intro outcome total i msg hlt herr hrej hprior
    obtain ⟨k, hk⟩ := Nat.exists_eq_add_of_lt hlt
    subst hk
    have hpre : ∀ j, 0 ≤ j → j < 0 + (i + 1) →
        (fun _ => false) j = false ∧ halting outcome j = false := by
      intro j _ hj
      rcases Nat.lt_or_ge j i with hji | hji
      · exact ⟨rfl, hprior j hji⟩
      · have hj_eq : j = i := by omega
        subst hj_eq
        exact ⟨rfl, by simp [halting, herr, hrej]⟩
    have hskip := iLoop_skip outcome (fun _ => false) (i + 1) 0 (k + 1) hpre
    simp only [Nat.zero_add] at hskip
    have htot : i + 1 + k + 1 = (i + 1) + (k + 1) := by omega
    rw [htot, hskip.1]
    exact List.mem_append.mpr (Or.inr
      (iLoop_first_mem outcome (fun _ => false) (i + 1) (k + 1) rfl
        (by omega)))

/-- Witness for C4: with the oracle rejecting at index 1, a run of 3
swaps attempts exactly indices 0 and 1 and stops by rejection; with the
oracle failing non-fatally at index 0, a run of 2 swaps still attempts
index 1. -/
theorem C4_rejection_stops_witness :
    (attemptsOf (iLoop exampleOutcomeRejectAt1 (fun _ => false) 0 3).1 =
        List.range 2 ∧
      (iLoop exampleOutcomeRejectAt1 (fun _ => false) 0 3).2 =
        RunEnd.stoppedByRejection) ∧
    1 ∈ attemptsOf (iLoop exampleOutcomeErrAt0 (fun _ => false) 0 2).1 := by
  constructor
  · exact C4_rejection_stops.1 exampleOutcomeRejectAt1 3 1 "user rejected"
      (by decide) rfl (by decide)
      (fun j hj => by
        have hj0 : j = 0 := by omega
        subst hj0
        decide)
  · exact C4_rejection_stops.2 exampleOutcomeErrAt0 2 0 "rpc timeout"
      (by decide) rfl (by decide)
      (fun j hj => absurd hj (Nat.not_lt_zero j))

/-! ## Claim C5: allowance manager (corrected)

The claim asserts that the allowance manager always compares the
current allowance against the CUMULATIVE amount
`amountPerSwap * totalSwaps`.  The batch script does
(`BigInt(currentAllowance) < BigInt(amountInUnits) * BigInt(TOTAL_SWAPS)`),
but the interactive service's `approveUSDC` compares against the amount
of a single swap only
(`BigInt(allowance) >= BigInt(amountInUnits)` with
`amountInUnits = parseUnits(config.amountPerSwap, 6)`), so a run whose
allowance covers one swap but not the whole run issues zero approvals,
where the claim demands exactly one. -/

/-- Counterexample to C5: an interactive run with allowance 10000
(= 0.01 USDC in 6-decimal units), amountPerSwap 10000 and totalSwaps 2
issues zero approval transactions although the allowance is strictly
below the cumulative requirement 10000 * 2. -/
theorem C5_counterexample :
    (runInteractive 10000 10000 true exampleOutcomeOk (fun _ => false) 2
        ⟨[], []⟩).events.countP isApproveEvent = 0 ∧
    10000 < 10000 * 2 := by
  decide

/-- Claim C5 as amended (proved): the batch script compares the
allowance against the cumulative amount `amountPerSwap * totalSwaps`,
while the interactive service compares it against the single-swap
amount only; in each variant, a sufficient compared amount yields zero
approval transactions and an insufficient one yields exactly one
approval transaction — for the maximum representable amount
`MaxUint256` — issued and awaited before any swap attempt (it precedes
the whole swap loop in the batch trace); at most one approval occurs
per run. -/
theorem C5_amended_allowance :
    (∀ (a m t : Nat) (aok : Bool) (res : Nat → DispatchResult),
        (batchMain true a m t aok res).1.countP isApproveEvent =
          if a < m * t then 1 else 0) ∧
    (∀ (allowance amt : Nat) (aok : Bool) (outcome : Nat → DispatchResult)
        (stop : Nat → Bool) (total : Nat) (s : EthSvcState),
        (runInteractive allowance amt aok outcome stop total
            s).events.countP isApproveEvent =
          if amt ≤ allowance then 0 else 1) ∧
    (∀ (a m t : Nat) (res : Nat → DispatchResult), a < m * t →
        (batchMain true a m t true res).1 =
          .approveTx MaxUint256 :: batchLoop res 0 t) := by
  refine ⟨?_, ?_, ?_⟩
  · intro a m t aok res
    by_cases hlt : a < m * t
    · cases aok with
      | true =>
        simp [batchMain, hlt, List.countP_cons, isApproveEvent,
          batchLoop_no_approve res t 0]
      | false => simp [batchMain, hlt, List.countP_cons, isApproveEvent]
    · simp [batchMain, hlt, batchLoop_no_approve res t 0]
  · intro allowance amt aok outcome stop total s
    by_cases hle : amt ≤ allowance
    · rw [runInteractive_sufficient allowance amt aok outcome stop total s hle]
      simp [hle, iLoop_no_approve outcome stop total 0]
    · cases aok with
      | true =>
        rw [runInteractive_insufficient allowance amt outcome stop total s hle]
        simp [hle, List.countP_cons, isApproveEvent,
          iLoop_no_approve outcome stop total 0]
      | false =>
        rw [runInteractive_approveFail allowance amt outcome stop total s hle]
        simp [hle, List.countP_cons, isApproveEvent]
  · intro a m t res hlt
    simp [batchMain, hlt]

/-- Witness for the amended C5: concrete batch and interactive runs in
both the sufficient and the insufficient case, and the approval
preceding the swap loop. -/
theorem C5_amended_allowance_witness :
    (batchMain true 2 1 3 true exampleOutcomeOk).1.countP isApproveEvent =
      (if 2 < 1 * 3 then 1 else 0) ∧
    (runInteractive 5 7 true exampleOutcomeOk (fun _ => false) 1
        ⟨[], []⟩).events.countP isApproveEvent = (if 7 ≤ 5 then 0 else 1) ∧
    (batchMain true 2 1 3 true exampleOutcomeOk).1 =
      .approveTx MaxUint256 :: batchLoop exampleOutcomeOk 0 3 :=
  ⟨C5_amended_allowance.1 2 1 3 true exampleOutcomeOk,
   C5_amended_allowance.2.1 5 7 true exampleOutcomeOk (fun _ => false) 1
     ⟨[], []⟩,
   C5_amended_allowance.2.2 2 1 3 exampleOutcomeOk (by decide)⟩

/-! ## Claim C6: batch-script process exit codes -/

/-- Claim C6 (confirmed): the batch script exits with code 1 when
`PRIVATE_KEY` is missing — before any network call, hence the empty
event trace — and with code 1 when the allowance/approval step fails;
when the key is present and the approval step succeeds (or is not
needed), the exit code is 0 after the loop, regardless of the per-swap
outcomes `res`. -/
theorem C6_exit_codes :
    (∀ (a m t : Nat) (aok : Bool) (res : Nat → DispatchResult),
        batchMain false a m t aok res = ([], 1)) ∧
    (∀ (a m t : Nat) (res : Nat → DispatchResult), a < m * t →
        batchMain true a m t false res = ([.approveTx MaxUint256], 1)) ∧
    (∀ (a m t : Nat) (aok : Bool) (res : Nat → DispatchResult),
        m * t ≤ a ∨ aok = true → (batchMain true a m t aok res).2 = 0) := by
  refine ⟨fun a m t aok res => rfl, ?_, ?_⟩
  · intro a m t res hlt
    simp [batchMain, hlt]
  · intro a m t aok res hcase
    rcases hcase with hle | haok
    · simp [batchMain, Nat.not_lt.mpr hle]
    · subst haok
      by_cases hlt : a < m * t <;> simp [batchMain, hlt]

/-- Witness for C6: missing key exits 1 with no events; failed approval
exits 1; successful approval (or sufficient allowance) reaches exit 0
even when every swap fails. -/
theorem C6_exit_codes_witness :
    batchMain false 5 1 3 true exampleOutcomeOk = ([], 1) ∧
    batchMain true 2 1 3 false exampleOutcomeOk =
      ([.approveTx MaxUint256], 1) ∧
    (batchMain true 2 1 3 true exampleOutcomeErrAt0).2 = 0 ∧
    (batchMain true 5 1 3 false exampleOutcomeErrAt0).2 = 0 :=
  ⟨C6_exit_codes.1 5 1 3 true exampleOutcomeOk,
   C6_exit_codes.2.1 2 1 3 exampleOutcomeOk (by decide),
   C6_exit_codes.2.2 2 1 3 true exampleOutcomeErrAt0 (Or.inr rfl),
   C6_exit_codes.2.2 5 1 3 false exampleOutcomeErrAt0 (Or.inl (by decide))⟩

/-! ## Claim C7: confirmation asymmetry between the two variants -/

/-- Claim C7 (confirmed): for every successfully dispatched swap, the
batch script awaits the on-chain confirmation (`await tx.wait()`)
before anything of index `i+1` occurs — its trace continues with
`confirmWait i` immediately after `swapSend i`, ahead of the optional
delay and the rest of the loop — while the interactive loop's trace
contains no confirmation await at all: after a successful dispatch it
proceeds to index `i+1` after the inter-swap delay only, bounded only
by the pending-slot cap (claim C1). -/
theorem C7_confirm_asymmetry :
    (∀ (res : Nat → DispatchResult) (i rem : Nat) (h : String),
        res i = .ok h →
        batchLoop res i (rem + 1) =
          .swapSend i :: .confirmWait i ::
            ((if 0 < rem then [BatchEvent.delayEvt] else []) ++
              batchLoop res (i + 1) rem)) ∧
    (∀ (outcome : Nat → DispatchResult) (stop : Nat → Bool) (i rem : Nat),
        (iLoop outcome stop i rem).1.countP isConfirmEvent = 0) ∧
    (∀ (outcome : Nat → DispatchResult) (stop : Nat → Bool) (i rem : Nat)
        (h : String), stop i = false → outcome i = .ok h →
        iLoop outcome stop i (rem + 1) =
          (.swapSend i :: .delayEvt :: (iLoop outcome stop (i + 1) rem).1,
            (iLoop outcome stop (i + 1) rem).2)) := by
  refine ⟨?_, ?_, ?_⟩
  · intro res i rem h hok
    simp [batchLoop, hok]
  · intro outcome stop i rem
    exact iLoop_no_confirm outcome stop rem i
  · intro outcome stop i rem h hstop hok
    exact iLoop_ok outcome stop i rem h hstop hok

/-- Witness for C7 on a concrete all-successful run of two swaps. -/
theorem C7_confirm_asymmetry_witness :
    batchLoop exampleOutcomeOk 0 2 =
      .swapSend 0 :: .confirmWait 0 ::
        ((if 0 < 1 then [BatchEvent.delayEvt] else []) ++
          batchLoop exampleOutcomeOk 1 1) ∧
    (iLoop exampleOutcomeOk (fun _ => false) 0 2).1.countP isConfirmEvent =
      0 ∧
    iLoop exampleOutcomeOk (fun _ => false) 0 2 =
      (.swapSend 0 :: .delayEvt ::
          (iLoop exampleOutcomeOk (fun _ => false) 1 1).1,
        (iLoop exampleOutcomeOk (fun _ => false) 1 1).2) :=
  ⟨C7_confirm_asymmetry.1 exampleOutcomeOk 0 1 "0xaa" rfl,
   C7_confirm_asymmetry.2.1 exampleOutcomeOk (fun _ => false) 0 2,
   C7_confirm_asymmetry.2.2 exampleOutcomeOk (fun _ => false) 0 1 "0xaa"
     rfl rfl⟩

/-! ## Claim C8: pending-slot entry lifetime (corrected)

The claim asserts the entry is removed only when the transaction's
outcome — confirmed on-chain or failed — is known.  In the source, the
deletion is attached to the settlement of the DISPATCH promise
(`router.execute(...)`), which resolves when the signed transaction has
been handed to the network, before it is mined; the service installs no
receipt handler, and confirmation leaves the map untouched.  The batch
script itself shows the distinction: after `await router.execute(...)`
it logs "TX sent ... (waiting confirmation)" and only `await tx.wait()`
observes confirmation. -/

/-- Counterexample to C8: after `dispatch` the entry is present; after
the dispatch promise resolves (the transaction merely sent — the trace
contains NO outcome event, neither a failure nor an on-chain
confirmation), the entry is already gone.  So the entry IS removed
before the outcome is known. -/
theorem C8_counterexample :
    pendingRun [TxEvent.dispatch 1] = [1] ∧
    pendingRun [TxEvent.dispatch 1, TxEvent.submitResolved 1] = [] ∧
    ([TxEvent.dispatch 1,
        TxEvent.submitResolved 1].countP isOutcomeEvent) = 0 := by
  decide

/-- Claim C8 as amended (proved): a pending-slot entry is added when
the transaction is dispatched and is removed exactly when that
transaction's dispatch promise settles — the wallet/network returns the
transaction response (hash), or the dispatch fails — which happens at
submission, before on-chain confirmation; an on-chain confirmation
event does not modify the pending set, and the entry is retained until
its own settlement event. -/
theorem C8_amended_lifecycle :
    (∀ (p : List Nat) (id : Nat), pendingStep p (.dispatch id) = id :: p) ∧
    (∀ (p : List Nat) (id : Nat),
        pendingStep p (.submitResolved id) = p.erase id) ∧
    (∀ (p : List Nat) (id : Nat),
        pendingStep p (.submitRejected id) = p.erase id) ∧
    (∀ (p : List Nat) (id : Nat), pendingStep p (.confirmedOnChain id) = p) ∧
    (∀ (p : List Nat) (id : Nat) (e : TxEvent), id ∈ p →
        e ≠ .submitResolved id → e ≠ .submitRejected id →
        id ∈ pendingStep p e) := by
  refine ⟨fun p id => rfl, fun p id => rfl, fun p id => rfl,
    fun p id => rfl, ?_⟩
  intro p id e hmem h1 h2
  cases e with
  | dispatch j => exact List.mem_cons_of_mem j hmem
  | submitResolved j =>
    have hne : id ≠ j := fun h => h1 (by rw [h])
    exact (List.mem_erase_of_ne hne).mpr hmem
  | submitRejected j =>
    have hne : id ≠ j := fun h => h2 (by rw [h])
    exact (List.mem_erase_of_ne hne).mpr hmem
  | confirmedOnChain j => exact hmem

/-- Witness for the amended C8 on concrete lifecycle events: entry 3 is
added by its dispatch, removed by either settlement of its dispatch
promise, untouched by its confirmation, and retained across the
confirmation of a different transaction. -/
theorem C8_amended_lifecycle_witness :
    pendingStep [] (.dispatch 3) = [3] ∧
    pendingStep [3] (.submitResolved 3) = [] ∧
    pendingStep [3] (.submitRejected 3) = [] ∧
    pendingStep [3] (.confirmedOnChain 3) = [3] ∧
    3 ∈ pendingStep [3] (.confirmedOnChain 7) :=
  ⟨C8_amended_lifecycle.1 [] 3,
   C8_amended_lifecycle.2.1 [3] 3,
   C8_amended_lifecycle.2.2.1 [3] 3,
   C8_amended_lifecycle.2.2.2.1 [3] 3,
   C8_amended_lifecycle.2.2.2.2 [3] 3 (.confirmedOnChain 7)
     (by decide) (by decide) (by decide)⟩

/-! ## Claim C9: exhaustion with no failures and no stop -/

/-- Claim C9 (confirmed): for every run configuration with
`totalSwaps = N` in which no dispatch fails and no stop is requested,
exactly N submission attempts occur — one per index `0 .. N-1` — in
both variants, the interactive run ends by exhausting the count, and
the pending-slot set is empty at run end (the `finally` block's
`cleanup()` clears it). -/
theorem C9_exhaustion :
    ∀ (outcome res : Nat → DispatchResult) (allowance amt total : Nat)
      (s : EthSvcState),
      (∀ i, i < total → ∃ h, outcome i = .ok h) →
      attemptsOf (runInteractive allowance amt true outcome
            (fun _ => false) total s).events = List.range total ∧
        (runInteractive allowance amt true outcome (fun _ => false) total
            s).endState = RunEnd.finished ∧
        (runInteractive allowance amt true outcome (fun _ => false) total
            s).finalPending = [] ∧
        attemptsOf (batchLoop res 0 total) = List.range total := by
  intro outcome res allowance amt total s hok
  have hpre : ∀ j, 0 ≤ j → j < 0 + total →
      (fun _ => false) j = false ∧ halting outcome j = false := by
    intro j _ hj
    obtain ⟨h, hh⟩ := hok j (by omega)
    exact ⟨rfl, by simp [halting, hh]⟩
  have hskip := iLoop_skip outcome (fun _ => false) total 0 0 hpre
  simp only [Nat.zero_add, Nat.add_zero] at hskip
  have h1 : attemptsOf (iLoop outcome (fun _ => false) 0 total).1 =
      List.range total := by
    rw [hskip.1, List.range_eq_range']
    simp [iLoop, attemptsOf]
  have h2 : (iLoop outcome (fun _ => false) 0 total).2 = RunEnd.finished := by
    rw [hskip.2]
    rfl
  have hbatch : attemptsOf (batchLoop res 0 total) = List.range total := by
    rw [batchLoop_attempts res total 0, List.range_eq_range']
  by_cases hle : amt ≤ allowance
  · rw [runInteractive_sufficient allowance amt true outcome
      (fun _ => false) total s hle]
    exact ⟨h1, h2, rfl, hbatch⟩
  · rw [runInteractive_insufficient allowance amt outcome
      (fun _ => false) total s hle]
    refine ⟨?_, h2, rfl, hbatch⟩
    rw [attemptsOf_cons_approve]
    exact h1

/-- Witness for C9: a concrete all-successful run of 2 swaps in each
variant attempts exactly indices 0 and 1 and ends with an empty pending
set. -/
theorem C9_exhaustion_witness :
    attemptsOf (runInteractive 0 0 true exampleOutcomeOk (fun _ => false) 2
        ⟨[7], ["usdc-signer"]⟩).events = List.range 2 ∧
      (runInteractive 0 0 true exampleOutcomeOk (fun _ => false) 2
          ⟨[7], ["usdc-signer"]⟩).endState = RunEnd.finished ∧
      (runInteractive 0 0 true exampleOutcomeOk (fun _ => false) 2
          ⟨[7], ["usdc-signer"]⟩).finalPending = [] ∧
      attemptsOf (batchLoop exampleOutcomeOk 0 2) = List.range 2 :=
  C9_exhaustion exampleOutcomeOk exampleOutcomeOk 0 0 2
    ⟨[7], ["usdc-signer"]⟩ (fun _ _ => ⟨"0xaa", rfl⟩)

/-! ## Claim C10: the interactive allowance check is per-swap -/

/-- Claim C10 (confirmed): the interactive service's `approveUSDC`
compares the current allowance only against the amount of a single
swap; in every run where the allowance covers one swap but not the
cumulative amount `amountPerSwap * totalSwaps`, zero approval
transactions are issued and the swap loop proceeds anyway (index 0 is
attempted). -/
theorem C10_per_swap_allowance :
    ∀ (allowance amt total : Nat) (outcome : Nat → DispatchResult)
      (s : EthSvcState),
      amt ≤ allowance → allowance < amt * total → 0 < total →
      (runInteractive allowance amt true outcome (fun _ => false) total
          s).events.countP isApproveEvent = 0 ∧
        0 ∈ attemptsOf (runInteractive allowance amt true outcome
            (fun _ => false) total s).events := by
  intro allowance amt total outcome s hle hcum htot
  rw [runInteractive_sufficient allowance amt true outcome (fun _ => false)
    total s hle]
  exact ⟨iLoop_no_approve outcome (fun _ => false) total 0,
    iLoop_first_mem outcome (fun _ => false) 0 total rfl htot⟩

/-- Witness for C10: allowance 10000 covers one swap of 10000 units but
not two, yet the run issues no approval and attempts index 0. -/
theorem C10_per_swap_allowance_witness :
    (runInteractive 10000 10000 true exampleOutcomeOk (fun _ => false) 2
        ⟨[1], []⟩).events.countP isApproveEvent = 0 ∧
      0 ∈ attemptsOf (runInteractive 10000 10000 true exampleOutcomeOk
          (fun _ => false) 2 ⟨[1], []⟩).events :=
  C10_per_swap_allowance 10000 10000 2 exampleOutcomeOk ⟨[1], []⟩
    (by decide) (by decide) (by decide)

end Farmer
